import Mathlib

/-!
Shallow embedding of the two export scripts of the repository.

`src/YOLO/Models/export_models.py` (the batch procedure) loops over the five
size tokens and, for each, loads a model and exports it:

    for size in ("n", "s", "m", "l", "x"):
        model = YOLO(f"yolo11{size}.pt")
        model.export(format="coreml", int8=True, nms=True)

`src/YOLOiOSApp/YOLOiOSApp/Models/export_models.py` (the single-model
procedure) loads one fixed model and exports it:

    model = YOLO("yolo11l.pt")
    model.export(format="coreml", int8=True, nms=True, imgsz=640)

The external collaborator (the `ultralytics` library) is modelled as a pair of
stateful operations `load` and `exportModel` that may fail (`Except`).  A run
of a procedure produces the final collaborator state, the ordered trace of
collaborator calls made (with their outcomes), and `some e` when a failure
aborted the run.  Python's exception propagation is modelled by aborting the
run at the first `Except.error`.
-/

/-- A value appearing in an export keyword-argument mapping. -/
inductive OptVal where
  | str (s : String)
  | bool (b : Bool)
  | nat (n : Nat)
deriving DecidableEq

/-- An export option mapping: ordered keyword arguments, as written at the
call site. -/
abbrev ExportArgs := List (String × OptVal)

/-- The option mapping of the batch procedure's export call:
`format="coreml", int8=True, nms=True`. -/
def batchExportArgs : ExportArgs :=
  [("format", OptVal.str "coreml"), ("int8", OptVal.bool true), ("nms", OptVal.bool true)]

/-- The option mapping of the single-model procedure's export call:
`format="coreml", int8=True, nms=True, imgsz=640`. -/
def singleExportArgs : ExportArgs :=
  [("format", OptVal.str "coreml"), ("int8", OptVal.bool true), ("nms", OptVal.bool true),
   ("imgsz", OptVal.nat 640)]

/-- The ordered tuple `("n", "s", "m", "l", "x")` iterated by the batch loop. -/
def sizes : List String := ["n", "s", "m", "l", "x"]

/-- The identifier template of the batch procedure: the f-string
`yolo11` ++ size ++ `.pt`. -/
def modelName (size : String) : String := "yolo11" ++ size ++ ".pt"

deriving instance DecidableEq for Except

/-- One observable collaborator call, together with the result the
collaborator produced for it.  `H` is the opaque model-handle type, `E` the
failure type. -/
inductive Call (H E : Type) where
  | load (ident : String) (result : Except E H)
  | exportCall (handle : H) (args : ExportArgs) (result : Except E Unit)
deriving DecidableEq

/-- The external collaborator: a model loader and an export facility.
Both thread an abstract state `S` (so a stand-in may be stateful) and may
fail with an `E`. -/
structure Collab (S H E : Type) where
  load : S → String → S × Except E H
  exportModel : S → H → ExportArgs → S × Except E Unit

/-- One iteration of the batch loop: `model = YOLO(f"yolo11{size}.pt")`
followed by `model.export(format="coreml", int8=True, nms=True)`, aborting
after the first failure. -/
def runStep {S H E : Type} (C : Collab S H E) (s : S) (size : String) :
    S × List (Call H E) × Option E :=
  match (C.load s (modelName size)).2 with
  | Except.error e =>
      ((C.load s (modelName size)).1, [Call.load (modelName size) (Except.error e)], some e)
  | Except.ok h =>
      match (C.exportModel (C.load s (modelName size)).1 h batchExportArgs).2 with
      | Except.error e =>
          ((C.exportModel (C.load s (modelName size)).1 h batchExportArgs).1,
           [Call.load (modelName size) (Except.ok h),
            Call.exportCall h batchExportArgs (Except.error e)], some e)
      | Except.ok _ =>
          ((C.exportModel (C.load s (modelName size)).1 h batchExportArgs).1,
           [Call.load (modelName size) (Except.ok h),
            Call.exportCall h batchExportArgs (Except.ok ())], none)

/-- The batch loop over an arbitrary token list: iterations run strictly in
sequence and an unhandled failure aborts all remaining iterations. -/
def batchRunAux {S H E : Type} (C : Collab S H E) : S → List String → S × List (Call H E) × Option E
  | s, [] => (s, [], none)
  | s, size :: rest =>
      match runStep C s size with
      | (s1, tr1, some e) => (s1, tr1, some e)
      | (s1, tr1, none) =>
          ((batchRunAux C s1 rest).1, tr1 ++ (batchRunAux C s1 rest).2.1,
           (batchRunAux C s1 rest).2.2)

/-- The batch export procedure (`src/YOLO/Models/export_models.py`). -/
def batchRun {S H E : Type} (C : Collab S H E) (s : S) : S × List (Call H E) × Option E :=
  batchRunAux C s sizes

/-- The single-model export procedure
(`src/YOLOiOSApp/YOLOiOSApp/Models/export_models.py`):
`model = YOLO("yolo11l.pt")` then
`model.export(format="coreml", int8=True, nms=True, imgsz=640)`. -/
def singleRun {S H E : Type} (C : Collab S H E) (s : S) : S × List (Call H E) × Option E :=
  match (C.load s "yolo11l.pt").2 with
  | Except.error e =>
      ((C.load s "yolo11l.pt").1, [Call.load "yolo11l.pt" (Except.error e)], some e)
  | Except.ok h =>
      match (C.exportModel (C.load s "yolo11l.pt").1 h singleExportArgs).2 with
      | Except.error e =>
          ((C.exportModel (C.load s "yolo11l.pt").1 h singleExportArgs).1,
           [Call.load "yolo11l.pt" (Except.ok h),
            Call.exportCall h singleExportArgs (Except.error e)], some e)
      | Except.ok _ =>
          ((C.exportModel (C.load s "yolo11l.pt").1 h singleExportArgs).1,
           [Call.load "yolo11l.pt" (Except.ok h),
            Call.exportCall h singleExportArgs (Except.ok ())], none)

/-- The identifiers of the loader calls of a trace, in order. -/
def loadCalls {H E : Type} : List (Call H E) → List String
  | [] => []
  | Call.load ident _ :: t => ident :: loadCalls t
  | Call.exportCall _ _ _ :: t => loadCalls t

/-- The option mappings of the export calls of a trace, in order. -/
def exportOptsList {H E : Type} : List (Call H E) → List ExportArgs
  | [] => []
  | Call.load _ _ :: t => exportOptsList t
  | Call.exportCall _ args _ :: t => args :: exportOptsList t

/-- A collaborator whose loader succeeds on every call (from every state,
for every identifier). -/
def LoadOk {S H E : Type} (C : Collab S H E) : Prop :=
  ∀ (s : S) (ident : String), ∃ h : H, (C.load s ident).2 = Except.ok h

/-- A collaborator whose export facility succeeds on every call. -/
def ExportOk {S H E : Type} (C : Collab S H E) : Prop :=
  ∀ (s : S) (h : H) (args : ExportArgs), (C.exportModel s h args).2 = Except.ok ()

/-- A trace is a strict alternation of load and export calls: pairs
`load, export` possibly followed by one final lone `load`. -/
inductive Alternation {H E : Type} : List (Call H E) → Prop
  | nil : Alternation []
  | lastLoad (ident : String) (r : Except E H) : Alternation [Call.load ident r]
  | pair (ident : String) (r : Except E H) (h : H) (args : ExportArgs) (r2 : Except E Unit)
      {rest : List (Call H E)} (hr : Alternation rest) :
      Alternation (Call.load ident r :: Call.exportCall h args r2 :: rest)

/-- A trace is well paired: every export call immediately follows a load
call that returned `Except.ok h`, and its receiver is exactly that `h`; a
lone load call (one not followed by its export) can only close the trace. -/
inductive Paired {H E : Type} : List (Call H E) → Prop
  | nil : Paired []
  | lastLoad (ident : String) (r : Except E H) : Paired [Call.load ident r]
  | pair (ident : String) (h : H) (args : ExportArgs) (r2 : Except E Unit)
      {rest : List (Call H E)} (hr : Paired rest) :
      Paired (Call.load ident (Except.ok h) :: Call.exportCall h args r2 :: rest)

/-- A concrete always-succeeding stateful stand-in collaborator: the state
counts the calls made so far and the loader hands out the current counter
value as the (fresh) handle. -/
def okCollab : Collab Nat Nat Nat where
  load := fun s _ => (s + 1, Except.ok s)
  exportModel := fun s _ _ => (s + 1, Except.ok ())

/-- A concrete stand-in collaborator whose loader fails (with error `7`)
exactly on identifier `yolo11m.pt` and succeeds otherwise; exports always
succeed. -/
def failMCollab : Collab Nat Nat Nat where
  load := fun s ident =>
    if ident = "yolo11m.pt" then (s + 1, Except.error 7) else (s + 1, Except.ok s)
  exportModel := fun s _ _ => (s + 1, Except.ok ())

example : (batchRun okCollab 0).2.2 = none := by decide
example : loadCalls (batchRun okCollab 0).2.1 =
    ["yolo11n.pt", "yolo11s.pt", "yolo11m.pt", "yolo11l.pt", "yolo11x.pt"] := by decide
example : loadCalls (batchRun failMCollab 0).2.1 =
    ["yolo11n.pt", "yolo11s.pt", "yolo11m.pt"] := by decide
example : (batchRun failMCollab 0).2.2 = some 7 := by decide
example : (singleRun okCollab 0).2.1 =
    [Call.load "yolo11l.pt" (Except.ok 0),
     Call.exportCall 0 singleExportArgs (Except.ok ())] := by decide

/-! ### Rewrite lemmas for one loop iteration -/

theorem runStep_load_error {S H E : Type} (C : Collab S H E) (s : S) (size : String) (e : E)
    (hld : (C.load s (modelName size)).2 = Except.error e) :
    runStep C s size =
      ((C.load s (modelName size)).1, [Call.load (modelName size) (Except.error e)], some e) := by
  simp only [runStep, hld]

theorem runStep_export_error {S H E : Type} (C : Collab S H E) (s : S) (size : String)
    (h : H) (e : E)
    (hld : (C.load s (modelName size)).2 = Except.ok h)
    (hex : (C.exportModel (C.load s (modelName size)).1 h batchExportArgs).2 = Except.error e) :
    runStep C s size =
      ((C.exportModel (C.load s (modelName size)).1 h batchExportArgs).1,
       [Call.load (modelName size) (Except.ok h),
        Call.exportCall h batchExportArgs (Except.error e)], some e) := by
  simp only [runStep, hld, hex]

theorem runStep_ok {S H E : Type} (C : Collab S H E) (s : S) (size : String) (h : H)
    (hld : (C.load s (modelName size)).2 = Except.ok h)
    (hex : (C.exportModel (C.load s (modelName size)).1 h batchExportArgs).2 = Except.ok ()) :
    runStep C s size =
      ((C.exportModel (C.load s (modelName size)).1 h batchExportArgs).1,
       [Call.load (modelName size) (Except.ok h),
        Call.exportCall h batchExportArgs (Except.ok ())], none) := by
  simp only [runStep, hld, hex]

/-! ### Structural lemmas about the batch loop -/

theorem batchRunAux_ok_shape {S H E : Type} (C : Collab S H E)
    (hL : LoadOk C) (hE : ExportOk C) :
    ∀ (L : List String) (s : S),
      loadCalls (batchRunAux C s L).2.1 = L.map modelName ∧
      exportOptsList (batchRunAux C s L).2.1 = List.replicate L.length batchExportArgs ∧
      (batchRunAux C s L).2.2 = none := by
  intro L
  induction L with
  | nil => intro s; exact ⟨rfl, rfl, rfl⟩
  | cons size rest ih =>
      intro s
      obtain ⟨h, hld⟩ := hL s (modelName size)
      have hstep := runStep_ok C s size h hld (hE _ _ _)
      obtain ⟨ih1, ih2, ih3⟩ :=
        ih (C.exportModel (C.load s (modelName size)).1 h batchExportArgs).1
      simp [batchRunAux, hstep, loadCalls, exportOptsList, ih1, ih2, ih3,
        List.replicate]

theorem batchRunAux_none_shape {S H E : Type} (C : Collab S H E) :
    ∀ (L : List String) (s : S), (batchRunAux C s L).2.2 = none →
      loadCalls (batchRunAux C s L).2.1 = L.map modelName ∧
      exportOptsList (batchRunAux C s L).2.1 = List.replicate L.length batchExportArgs := by
  intro L
  induction L with
  | nil => intro s _; exact ⟨rfl, rfl⟩
  | cons size rest ih =>
      intro s hnone
      rcases hld : (C.load s (modelName size)).2 with e | h
      · have hstep := runStep_load_error C s size e hld
        simp [batchRunAux, hstep] at hnone
      · rcases hex : (C.exportModel (C.load s (modelName size)).1 h batchExportArgs).2
          with e | u
        · have hstep := runStep_export_error C s size h e hld hex
          simp [batchRunAux, hstep] at hnone
        · cases u
          have hstep := runStep_ok C s size h hld hex
          simp only [batchRunAux, hstep] at hnone ⊢
          obtain ⟨ih1, ih2⟩ := ih _ hnone
          simp [loadCalls, exportOptsList, ih1, ih2, List.replicate]

theorem batchRunAux_split {S H E : Type} (C : Collab S H E) :
    ∀ (pre rest : List String) (s : S), (batchRunAux C s pre).2.2 = none →
      batchRunAux C s (pre ++ rest) =
        ((batchRunAux C (batchRunAux C s pre).1 rest).1,
         (batchRunAux C s pre).2.1 ++ (batchRunAux C (batchRunAux C s pre).1 rest).2.1,
         (batchRunAux C (batchRunAux C s pre).1 rest).2.2) := by
  intro pre
  induction pre with
  | nil => intro rest s _; simp [batchRunAux]
  | cons size pre ih =>
      intro rest s hnone
      rcases hr : runStep C s size with ⟨s1, tr1, err1⟩
      cases err1 with
      | some e => simp [batchRunAux, hr] at hnone
      | none =>
          simp only [batchRunAux, hr, List.cons_append, List.append_eq] at hnone ⊢
          rw [ih rest s1 hnone]
          simp [List.append_assoc]

theorem paired_batchRunAux {S H E : Type} (C : Collab S H E) :
    ∀ (L : List String) (s : S), Paired (batchRunAux C s L).2.1 := by
  intro L
  induction L with
  | nil => intro s; exact Paired.nil
  | cons size rest ih =>
      intro s
      rcases hld : (C.load s (modelName size)).2 with e | h
      · have hstep := runStep_load_error C s size e hld
        simp only [batchRunAux, hstep]
        exact Paired.lastLoad _ _
      · rcases hex : (C.exportModel (C.load s (modelName size)).1 h batchExportArgs).2
          with e | u
        · have hstep := runStep_export_error C s size h e hld hex
          simp only [batchRunAux, hstep]
          exact Paired.pair _ _ _ _ Paired.nil
        · cases u
          have hstep := runStep_ok C s size h hld hex
          simp only [batchRunAux, hstep, List.cons_append, List.nil_append]
          exact Paired.pair _ _ _ _ (ih _)

theorem paired_alternation {H E : Type} {l : List (Call H E)} (hp : Paired l) :
    Alternation l := by
  induction hp with
  | nil => exact Alternation.nil
  | lastLoad ident r => exact Alternation.lastLoad ident r
  | pair ident h args r2 hr ih => exact Alternation.pair _ _ _ _ _ ih

theorem paired_prefix_counts {H E : Type} {l : List (Call H E)} (hp : Paired l) :
    ∀ p : List (Call H E), p <+: l →
      (exportOptsList p).length ≤ (loadCalls p).length ∧
      (loadCalls p).length ≤ (exportOptsList p).length + 1 := by
  induction hp with
  | nil =>
      intro p hpre
      rw [List.prefix_nil.mp hpre]
      simp [loadCalls, exportOptsList]
  | lastLoad ident r =>
      intro p hpre
      obtain ⟨t, ht⟩ := hpre
      match p, ht with
      | [], _ => simp [loadCalls, exportOptsList]
      | a :: q, ht =>
          rw [List.cons_append] at ht
          obtain ⟨ha, hq⟩ := List.cons.inj ht
          obtain ⟨hq0, -⟩ := List.append_eq_nil.mp hq
          subst ha hq0
          simp [loadCalls, exportOptsList]
  | pair ident h args r2 hr ih =>
      intro p hpre
      obtain ⟨t, ht⟩ := hpre
      match p, ht with
      | [], _ => simp [loadCalls, exportOptsList]
      | a :: q, ht =>
          rw [List.cons_append] at ht
          obtain ⟨ha, hq⟩ := List.cons.inj ht
          subst ha
          match q, hq with
          | [], _ => simp [loadCalls, exportOptsList]
          | b :: q2, hq =>
              rw [List.cons_append] at hq
              obtain ⟨hb, hq2⟩ := List.cons.inj hq
              subst hb
              obtain ⟨c1, c2⟩ := ih q2 ⟨t, hq2⟩
              constructor
              · simp only [loadCalls, exportOptsList, List.length_cons]
                omega
              · simp only [loadCalls, exportOptsList, List.length_cons]
                omega

/-! ### Rewrite lemmas for the single-model procedure -/

theorem singleRun_load_error {S H E : Type} (C : Collab S H E) (s : S) (e : E)
    (hld : (C.load s "yolo11l.pt").2 = Except.error e) :
    singleRun C s =
      ((C.load s "yolo11l.pt").1, [Call.load "yolo11l.pt" (Except.error e)], some e) := by
  simp only [singleRun, hld]

theorem singleRun_export_error {S H E : Type} (C : Collab S H E) (s : S) (h : H) (e : E)
    (hld : (C.load s "yolo11l.pt").2 = Except.ok h)
    (hex : (C.exportModel (C.load s "yolo11l.pt").1 h singleExportArgs).2 = Except.error e) :
    singleRun C s =
      ((C.exportModel (C.load s "yolo11l.pt").1 h singleExportArgs).1,
       [Call.load "yolo11l.pt" (Except.ok h),
        Call.exportCall h singleExportArgs (Except.error e)], some e) := by
  simp only [singleRun, hld, hex]

theorem singleRun_ok {S H E : Type} (C : Collab S H E) (s : S) (h : H)
    (hld : (C.load s "yolo11l.pt").2 = Except.ok h)
    (hex : (C.exportModel (C.load s "yolo11l.pt").1 h singleExportArgs).2 = Except.ok ()) :
    singleRun C s =
      ((C.exportModel (C.load s "yolo11l.pt").1 h singleExportArgs).1,
       [Call.load "yolo11l.pt" (Except.ok h),
        Call.exportCall h singleExportArgs (Except.ok ())], none) := by
  simp only [singleRun, hld, hex]

theorem modelName_n : modelName "n" = "yolo11n.pt" := rfl

theorem modelName_s : modelName "s" = "yolo11s.pt" := rfl

theorem modelName_m : modelName "m" = "yolo11m.pt" := rfl

theorem modelName_l : modelName "l" = "yolo11l.pt" := rfl

theorem modelName_x : modelName "x" = "yolo11x.pt" := rfl

theorem singleRun_ok_shape {S H E : Type} (C : Collab S H E) (s : S)
    (hL : LoadOk C) (hE : ExportOk C) :
    ∃ h : H, singleRun C s =
      ((C.exportModel (C.load s "yolo11l.pt").1 h singleExportArgs).1,
       [Call.load "yolo11l.pt" (Except.ok h),
        Call.exportCall h singleExportArgs (Except.ok ())], none) := by
  obtain ⟨h, hld⟩ := hL s "yolo11l.pt"
  exact ⟨h, singleRun_ok C s h hld (hE _ _ _)⟩

theorem batch_abort_at_split {S H E : Type} (C : Collab S H E) (s : S)
    (pre post : List String) (size : String) (e : E)
    (hsplit : sizes = pre ++ size :: post)
    (hpre : (batchRunAux C s pre).2.2 = none)
    (hfail : (runStep C (batchRunAux C s pre).1 size).2.2 = some e) :
    (batchRun C s).2.2 = some e ∧
    (batchRun C s).2.1 =
      (batchRunAux C s pre).2.1 ++ (runStep C (batchRunAux C s pre).1 size).2.1 := by
  rcases hr : runStep C (batchRunAux C s pre).1 size with ⟨s2, tr2, err2⟩
  have he2 : err2 = some e := by rw [hr] at hfail; exact hfail
  subst he2
  rw [batchRun, hsplit, batchRunAux_split C pre (size :: post) s hpre]
  simp [batchRunAux, hr]

/-- A second concrete always-succeeding stand-in collaborator, stateless and
with a different handle type: the loader returns the identifier string itself
as the handle. -/
def okCollab2 : Collab Unit String Nat where
  load := fun _ ident => ((), Except.ok ident)
  exportModel := fun _ _ _ => ((), Except.ok ())

/-! ### The claims -/

/-- Claim C1: in every run of the batch export procedure against a
loader/exporter that succeeds on every call, the loader is invoked exactly
once per size token with identifier `yolo11{token}.pt`, and on each returned
handle export is invoked exactly once with an option mapping containing
exactly the three entries `format="coreml"`, `int8=true`, `nms=true` and no
other option (in particular no `imgsz`). -/
theorem batch_calls_and_args_exact {S H E : Type} (C : Collab S H E) (s : S)
    (hL : LoadOk C) (hE : ExportOk C) :
    (∃ h1 h2 h3 h4 h5 : H,
      (batchRun C s).2.1 =
        [Call.load "yolo11n.pt" (Except.ok h1), Call.exportCall h1 batchExportArgs (Except.ok ()),
         Call.load "yolo11s.pt" (Except.ok h2), Call.exportCall h2 batchExportArgs (Except.ok ()),
         Call.load "yolo11m.pt" (Except.ok h3), Call.exportCall h3 batchExportArgs (Except.ok ()),
         Call.load "yolo11l.pt" (Except.ok h4), Call.exportCall h4 batchExportArgs (Except.ok ()),
         Call.load "yolo11x.pt" (Except.ok h5),
         Call.exportCall h5 batchExportArgs (Except.ok ())]) ∧
    batchExportArgs.length = 3 ∧
    List.lookup "format" batchExportArgs = some (OptVal.str "coreml") ∧
    List.lookup "int8" batchExportArgs = some (OptVal.bool true) ∧
    List.lookup "nms" batchExportArgs = some (OptVal.bool true) ∧
    List.lookup "imgsz" batchExportArgs = none := by
  obtain ⟨h1, hld1⟩ := hL s (modelName "n")
  have hs1 := runStep_ok C s "n" h1 hld1 (hE _ _ _)
  set s1 := (C.exportModel (C.load s (modelName "n")).1 h1 batchExportArgs).1 with hdef1
  obtain ⟨h2, hld2⟩ := hL s1 (modelName "s")
  have hs2 := runStep_ok C s1 "s" h2 hld2 (hE _ _ _)
  set s2 := (C.exportModel (C.load s1 (modelName "s")).1 h2 batchExportArgs).1 with hdef2
  obtain ⟨h3, hld3⟩ := hL s2 (modelName "m")
  have hs3 := runStep_ok C s2 "m" h3 hld3 (hE _ _ _)
  set s3 := (C.exportModel (C.load s2 (modelName "m")).1 h3 batchExportArgs).1 with hdef3
  obtain ⟨h4, hld4⟩ := hL s3 (modelName "l")
  have hs4 := runStep_ok C s3 "l" h4 hld4 (hE _ _ _)
  set s4 := (C.exportModel (C.load s3 (modelName "l")).1 h4 batchExportArgs).1 with hdef4
  obtain ⟨h5, hld5⟩ := hL s4 (modelName "x")
  have hs5 := runStep_ok C s4 "x" h5 hld5 (hE _ _ _)
  refine ⟨⟨h1, h2, h3, h4, h5, ?_⟩, by decide, by decide, by decide, by decide, by decide⟩
  simp only [batchRun, sizes, batchRunAux, hs1, hs2, hs3, hs4, hs5,
    modelName_n, modelName_s, modelName_m, modelName_l, modelName_x,
    List.cons_append, List.nil_append]

/-- Witness for C1 at the concrete always-succeeding stand-in `okCollab`
started in state `0` (its handles are `0, 2, 4, 6, 8`). -/
theorem batch_calls_and_args_exact_witness :
    (∃ h1 h2 h3 h4 h5 : Nat,
      (batchRun okCollab 0).2.1 =
        [Call.load "yolo11n.pt" (Except.ok h1), Call.exportCall h1 batchExportArgs (Except.ok ()),
         Call.load "yolo11s.pt" (Except.ok h2), Call.exportCall h2 batchExportArgs (Except.ok ()),
         Call.load "yolo11m.pt" (Except.ok h3), Call.exportCall h3 batchExportArgs (Except.ok ()),
         Call.load "yolo11l.pt" (Except.ok h4), Call.exportCall h4 batchExportArgs (Except.ok ()),
         Call.load "yolo11x.pt" (Except.ok h5),
         Call.exportCall h5 batchExportArgs (Except.ok ())]) ∧
    batchExportArgs.length = 3 ∧
    List.lookup "format" batchExportArgs = some (OptVal.str "coreml") ∧
    List.lookup "int8" batchExportArgs = some (OptVal.bool true) ∧
    List.lookup "nms" batchExportArgs = some (OptVal.bool true) ∧
    List.lookup "imgsz" batchExportArgs = none :=
  batch_calls_and_args_exact okCollab 0 (fun s _ => ⟨s, rfl⟩) (fun _ _ _ => rfl)

/-- Claim C2: in every run of the single-model export procedure against a
loader/exporter that succeeds on every call, the loader is invoked exactly
once, with identifier `yolo11l.pt`, and export is invoked exactly once on the
returned handle with an option mapping containing exactly the four entries
`format="coreml"`, `int8=true`, `nms=true`, `imgsz=640`. -/
theorem single_calls_and_args_exact {S H E : Type} (C : Collab S H E) (s : S)
    (hL : LoadOk C) (hE : ExportOk C) :
    (∃ h : H, (singleRun C s).2.1 =
        [Call.load "yolo11l.pt" (Except.ok h),
         Call.exportCall h singleExportArgs (Except.ok ())]) ∧
    (singleRun C s).2.2 = none ∧
    singleExportArgs.length = 4 ∧
    List.lookup "format" singleExportArgs = some (OptVal.str "coreml") ∧
    List.lookup "int8" singleExportArgs = some (OptVal.bool true) ∧
    List.lookup "nms" singleExportArgs = some (OptVal.bool true) ∧
    List.lookup "imgsz" singleExportArgs = some (OptVal.nat 640) := by
  obtain ⟨h, hrun⟩ := singleRun_ok_shape C s hL hE
  exact ⟨⟨h, by rw [hrun]⟩, by rw [hrun], by decide, by decide, by decide, by decide, by decide⟩

/-- Witness for C2 at the concrete always-succeeding stand-in `okCollab`
started in state `0`. -/
theorem single_calls_and_args_exact_witness :
    (∃ h : Nat, (singleRun okCollab 0).2.1 =
        [Call.load "yolo11l.pt" (Except.ok h),
         Call.exportCall h singleExportArgs (Except.ok ())]) ∧
    (singleRun okCollab 0).2.2 = none ∧
    singleExportArgs.length = 4 ∧
    List.lookup "format" singleExportArgs = some (OptVal.str "coreml") ∧
    List.lookup "int8" singleExportArgs = some (OptVal.bool true) ∧
    List.lookup "nms" singleExportArgs = some (OptVal.bool true) ∧
    List.lookup "imgsz" singleExportArgs = some (OptVal.nat 640) :=
  single_calls_and_args_exact okCollab 0 (fun s _ => ⟨s, rfl⟩) (fun _ _ _ => rfl)

/-- Claim C3: in every fully successful run of the batch export procedure the
loader is invoked with the five size tokens in exactly the order
n, s, m, l, x; no token is skipped (all five identifiers appear), none is
loaded more than once (the identifier list has no duplicates), and exactly
five export calls are made (one per loaded handle, by the alternation of the
trace), so no token is exported more than once. -/
theorem batch_load_order_exact {S H E : Type} (C : Collab S H E) (s : S)
    (hL : LoadOk C) (hE : ExportOk C) :
    loadCalls (batchRun C s).2.1 =
      ["yolo11n.pt", "yolo11s.pt", "yolo11m.pt", "yolo11l.pt", "yolo11x.pt"] ∧
    (loadCalls (batchRun C s).2.1).Nodup ∧
    (exportOptsList (batchRun C s).2.1).length = 5 := by
  obtain ⟨hload, hexp, -⟩ := batchRunAux_ok_shape C hL hE sizes s
  rw [batchRun]
  refine ⟨?_, ?_, ?_⟩
  · rw [hload]; decide
  · rw [hload]; decide
  · rw [hexp]; decide

/-- Witness for C3 at the concrete always-succeeding stand-in `okCollab`
started in state `0`. -/
theorem batch_load_order_exact_witness :
    loadCalls (batchRun okCollab 0).2.1 =
      ["yolo11n.pt", "yolo11s.pt", "yolo11m.pt", "yolo11l.pt", "yolo11x.pt"] ∧
    (loadCalls (batchRun okCollab 0).2.1).Nodup ∧
    (exportOptsList (batchRun okCollab 0).2.1).length = 5 :=
  batch_load_order_exact okCollab 0 (fun s _ => ⟨s, rfl⟩) (fun _ _ _ => rfl)

/-- Claim C4: if the loader succeeds on the first two tokens and fails on the
third token `m` (with exports succeeding), the batch procedure makes exactly
the three loader calls `yolo11n.pt, yolo11s.pt, yolo11m.pt` (so the loader is
never invoked for `l` or `x`), makes exactly two export calls (so export is
never invoked for the `m` handle), and ends with the loader's failure. -/
theorem batch_abort_on_m_failure {S H E : Type} (C : Collab S H E) (s : S) (e : E)
    (hn : ∀ t : S, ∃ h : H, (C.load t (modelName "n")).2 = Except.ok h)
    (hso : ∀ t : S, ∃ h : H, (C.load t (modelName "s")).2 = Except.ok h)
    (hm : ∀ t : S, (C.load t (modelName "m")).2 = Except.error e)
    (hE : ExportOk C) :
    loadCalls (batchRun C s).2.1 = ["yolo11n.pt", "yolo11s.pt", "yolo11m.pt"] ∧
    (exportOptsList (batchRun C s).2.1).length = 2 ∧
    (batchRun C s).2.2 = some e := by
  obtain ⟨h1, hld1⟩ := hn s
  have hs1 := runStep_ok C s "n" h1 hld1 (hE _ _ _)
  set s1 := (C.exportModel (C.load s (modelName "n")).1 h1 batchExportArgs).1 with hdef1
  obtain ⟨h2, hld2⟩ := hso s1
  have hs2 := runStep_ok C s1 "s" h2 hld2 (hE _ _ _)
  set s2 := (C.exportModel (C.load s1 (modelName "s")).1 h2 batchExportArgs).1 with hdef2
  have hs3 := runStep_load_error C s2 "m" e (hm s2)
  refine ⟨?_, ?_, ?_⟩ <;>
    simp [batchRun, sizes, batchRunAux, hs1, hs2, hs3,
      loadCalls, exportOptsList, modelName_n, modelName_s, modelName_m]

/-- Witness for C4 at the concrete stand-in `failMCollab`, whose loader
fails with error `7` exactly on `yolo11m.pt`, started in state `0`. -/
theorem batch_abort_on_m_failure_witness :
    loadCalls (batchRun failMCollab 0).2.1 = ["yolo11n.pt", "yolo11s.pt", "yolo11m.pt"] ∧
    (exportOptsList (batchRun failMCollab 0).2.1).length = 2 ∧
    (batchRun failMCollab 0).2.2 = some 7 :=
  batch_abort_on_m_failure failMCollab 0 7
    (fun t => ⟨t, by simp [failMCollab, modelName]⟩)
    (fun t => ⟨t, by simp [failMCollab, modelName]⟩)
    (fun t => by simp [failMCollab, modelName])
    (fun _ _ _ => rfl)

/-- Claim C5: in either procedure, a failure of any loader or export call
terminates the run immediately with that failure.  Batch part: for every
position at which the first failing call occurs (whether it is the load step
or the export step of that iteration), the run's outcome is that failure and
its trace ends at the failing iteration, so no loader or export call is made
for any remaining token.  Single part: a failing load (or a failing export
after a successful load) ends the run with that failure and the trace stops
at the failing call. -/
theorem failure_propagates_and_aborts :
    (∀ (S H E : Type) (C : Collab S H E) (s : S) (pre post : List String) (size : String) (e : E),
      sizes = pre ++ size :: post →
      (batchRunAux C s pre).2.2 = none →
      (runStep C (batchRunAux C s pre).1 size).2.2 = some e →
      (batchRun C s).2.2 = some e ∧
      (batchRun C s).2.1 =
        (batchRunAux C s pre).2.1 ++ (runStep C (batchRunAux C s pre).1 size).2.1) ∧
    (∀ (S H E : Type) (C : Collab S H E) (s : S) (e : E),
      ((C.load s "yolo11l.pt").2 = Except.error e →
        (singleRun C s).2.2 = some e ∧
        (singleRun C s).2.1 = [Call.load "yolo11l.pt" (Except.error e)]) ∧
      (∀ h : H,
        (C.load s "yolo11l.pt").2 = Except.ok h →
        (C.exportModel (C.load s "yolo11l.pt").1 h singleExportArgs).2 = Except.error e →
        (singleRun C s).2.2 = some e ∧
        (singleRun C s).2.1 =
          [Call.load "yolo11l.pt" (Except.ok h),
           Call.exportCall h singleExportArgs (Except.error e)])) := by
  constructor
  · intro S H E C s pre post size e hsplit hpre hfail
    exact batch_abort_at_split C s pre post size e hsplit hpre hfail
  · intro S H E C s e
    constructor
    · intro hld
      rw [singleRun_load_error C s e hld]
      exact ⟨rfl, rfl⟩
    · intro h hld hex
      rw [singleRun_export_error C s h e hld hex]
      exact ⟨rfl, rfl⟩

/-- Witness for C5 (batch part) at `failMCollab` started in state `0`: the
first failure occurs at the third token and the run stops there with it. -/
theorem failure_propagates_and_aborts_witness :
    (batchRun failMCollab 0).2.2 = some 7 ∧
    (batchRun failMCollab 0).2.1 =
      (batchRunAux failMCollab 0 ["n", "s"]).2.1 ++
        (runStep failMCollab (batchRunAux failMCollab 0 ["n", "s"]).1 "m").2.1 :=
  failure_propagates_and_aborts.1 Nat Nat Nat failMCollab 0 ["n", "s"] ["l", "x"] "m" 7
    (by decide) (by decide) (by decide)

/-- Claim C6: execution of the batch procedure is strictly sequential: every
trace it can produce (over any collaborator, including runs cut short by a
failure) is a strict alternation load, export, load, export, ... — each
export call appears immediately after its iteration's load call and before
the next iteration's load call, with no interleaving. -/
theorem batch_trace_alternates {S H E : Type} (C : Collab S H E) (s : S) :
    Alternation (batchRun C s).2.1 :=
  paired_alternation (paired_batchRunAux C sizes s)

/-- Claim C7: re-running a procedure from the collaborator state left behind
by a previous run produces the same sequence of loader identifiers and the
same sequence of export option mappings, for both the batch and the
single-model procedure, whenever the collaborator succeeds on every call: no
state carried from one run changes the call sequence of the next. -/
theorem rerun_same_call_sequence {S H E : Type} (C : Collab S H E) (s : S)
    (hL : LoadOk C) (hE : ExportOk C) :
    (loadCalls (batchRun C (batchRun C s).1).2.1 = loadCalls (batchRun C s).2.1 ∧
     exportOptsList (batchRun C (batchRun C s).1).2.1 = exportOptsList (batchRun C s).2.1) ∧
    (loadCalls (singleRun C (singleRun C s).1).2.1 = loadCalls (singleRun C s).2.1 ∧
     exportOptsList (singleRun C (singleRun C s).1).2.1 =
       exportOptsList (singleRun C s).2.1) := by
  obtain ⟨l1, e1, -⟩ := batchRunAux_ok_shape C hL hE sizes s
  obtain ⟨l2, e2, -⟩ := batchRunAux_ok_shape C hL hE sizes (batchRun C s).1
  obtain ⟨ha, hra⟩ := singleRun_ok_shape C s hL hE
  obtain ⟨hb, hrb⟩ := singleRun_ok_shape C (singleRun C s).1 hL hE
  refine ⟨⟨?_, ?_⟩, ?_, ?_⟩
  · show loadCalls (batchRunAux C (batchRun C s).1 sizes).2.1 =
      loadCalls (batchRunAux C s sizes).2.1
    rw [l1, l2]
  · show exportOptsList (batchRunAux C (batchRun C s).1 sizes).2.1 =
      exportOptsList (batchRunAux C s sizes).2.1
    rw [e1, e2]
  · rw [hrb, hra]
    simp [loadCalls]
  · rw [hrb, hra]
    simp [exportOptsList]

/-- Witness for C7 at the concrete stateful stand-in `okCollab` started in
state `0` (the second run really starts from the first run's final state). -/
theorem rerun_same_call_sequence_witness :
    (loadCalls (batchRun okCollab (batchRun okCollab 0).1).2.1 =
       loadCalls (batchRun okCollab 0).2.1 ∧
     exportOptsList (batchRun okCollab (batchRun okCollab 0).1).2.1 =
       exportOptsList (batchRun okCollab 0).2.1) ∧
    (loadCalls (singleRun okCollab (singleRun okCollab 0).1).2.1 =
       loadCalls (singleRun okCollab 0).2.1 ∧
     exportOptsList (singleRun okCollab (singleRun okCollab 0).1).2.1 =
       exportOptsList (singleRun okCollab 0).2.1) :=
  rerun_same_call_sequence okCollab 0 (fun s _ => ⟨s, rfl⟩) (fun _ _ _ => rfl)

/-- Claim C8: invariant of the batch procedure: every trace it can produce is
well paired (each export call immediately follows a load call that returned
`Except.ok h` and its receiver is exactly that `h`; export is never called
without a preceding matching load), and along every prefix of the trace the
number of export calls so far equals the number of load calls so far or is
exactly one less. -/
theorem batch_load_export_invariant {S H E : Type} (C : Collab S H E) (s : S) :
    Paired (batchRun C s).2.1 ∧
    ∀ p : List (Call H E), p <+: (batchRun C s).2.1 →
      (exportOptsList p).length ≤ (loadCalls p).length ∧
      (loadCalls p).length ≤ (exportOptsList p).length + 1 :=
  ⟨paired_batchRunAux C sizes s,
   fun p hp => paired_prefix_counts (paired_batchRunAux C sizes s) p hp⟩

/-- Witness for C8 at `okCollab` started in state `0`, taking as prefix the
trace's first call (one load, no export yet). -/
theorem batch_load_export_invariant_witness :
    Paired (batchRun okCollab 0).2.1 ∧
    ((exportOptsList ([Call.load "yolo11n.pt" (Except.ok 0)] : List (Call Nat Nat))).length ≤
       (loadCalls ([Call.load "yolo11n.pt" (Except.ok 0)] : List (Call Nat Nat))).length ∧
     (loadCalls ([Call.load "yolo11n.pt" (Except.ok 0)] : List (Call Nat Nat))).length ≤
       (exportOptsList ([Call.load "yolo11n.pt" (Except.ok 0)] : List (Call Nat Nat))).length
         + 1) :=
  ⟨(batch_load_export_invariant okCollab 0).1,
   (batch_load_export_invariant okCollab 0).2
     ([Call.load "yolo11n.pt" (Except.ok 0)] : List (Call Nat Nat)) (by decide)⟩

/-- Claim C9: partial progress on failure: when the batch procedure's first
failure occurs at the token `size` (after the fully successful prefix `pre`
of the token list, whether the failing call is the load or the export step),
every earlier token has had its load invoked exactly once and its export
invoked exactly once — the prefix trace is exactly `pre`'s identifiers in
order with one export per token — and the full trace is that prefix followed
by the failing iteration's calls, with nothing repeated or undone. -/
theorem batch_partial_progress_on_failure {S H E : Type} (C : Collab S H E) (s : S)
    (pre post : List String) (size : String) (e : E)
    (hsplit : sizes = pre ++ size :: post)
    (hpre : (batchRunAux C s pre).2.2 = none)
    (hfail : (runStep C (batchRunAux C s pre).1 size).2.2 = some e) :
    loadCalls (batchRunAux C s pre).2.1 = pre.map modelName ∧
    exportOptsList (batchRunAux C s pre).2.1 = List.replicate pre.length batchExportArgs ∧
    (batchRun C s).2.1 =
      (batchRunAux C s pre).2.1 ++ (runStep C (batchRunAux C s pre).1 size).2.1 ∧
    (batchRun C s).2.2 = some e := by
  obtain ⟨hl, he⟩ := batchRunAux_none_shape C pre s hpre
  obtain ⟨o1, o2⟩ := batch_abort_at_split C s pre post size e hsplit hpre hfail
  exact ⟨hl, he, o2, o1⟩

/-- Witness for C9 at `failMCollab` started in state `0`: the first failure
occurs at the third token, after tokens `n` and `s` were each loaded and
exported exactly once. -/
theorem batch_partial_progress_on_failure_witness :
    loadCalls (batchRunAux failMCollab 0 ["n", "s"]).2.1 = (["n", "s"] : List String).map modelName ∧
    exportOptsList (batchRunAux failMCollab 0 ["n", "s"]).2.1 =
      List.replicate (["n", "s"] : List String).length batchExportArgs ∧
    (batchRun failMCollab 0).2.1 =
      (batchRunAux failMCollab 0 ["n", "s"]).2.1 ++
        (runStep failMCollab (batchRunAux failMCollab 0 ["n", "s"]).1 "m").2.1 ∧
    (batchRun failMCollab 0).2.2 = some 7 :=
  batch_partial_progress_on_failure failMCollab 0 ["n", "s"] ["l", "x"] "m" 7
    (by decide) (by decide) (by decide)

/-- Claim C10: noninterference of loader results on control flow: two runs of
the batch procedure against any two everywhere-succeeding collaborators —
with arbitrarily different state, handle and error types and arbitrarily
different returned handles — invoke the loader with identical identifier
strings in identical order and pass identical option mappings to every
export call. -/
theorem batch_noninterference_of_handles {Sa Ha Ea Sb Hb Eb : Type}
    (Ca : Collab Sa Ha Ea) (Cb : Collab Sb Hb Eb) (sa : Sa) (sb : Sb)
    (haL : LoadOk Ca) (haE : ExportOk Ca) (hbL : LoadOk Cb) (hbE : ExportOk Cb) :
    loadCalls (batchRun Ca sa).2.1 = loadCalls (batchRun Cb sb).2.1 ∧
    exportOptsList (batchRun Ca sa).2.1 = exportOptsList (batchRun Cb sb).2.1 := by
  obtain ⟨la, ea, -⟩ := batchRunAux_ok_shape Ca haL haE sizes sa
  obtain ⟨lb, eb, -⟩ := batchRunAux_ok_shape Cb hbL hbE sizes sb
  refine ⟨?_, ?_⟩
  · show loadCalls (batchRunAux Ca sa sizes).2.1 = loadCalls (batchRunAux Cb sb sizes).2.1
    rw [la, lb]
  · show exportOptsList (batchRunAux Ca sa sizes).2.1 =
      exportOptsList (batchRunAux Cb sb sizes).2.1
    rw [ea, eb]

/-- Witness for C10 at two concrete stand-ins with different handle types and
values: `okCollab` (stateful, `Nat` handles `0, 2, 4, 6, 8`) and `okCollab2`
(stateless, `String` handles equal to the identifiers). -/
theorem batch_noninterference_of_handles_witness :
    loadCalls (batchRun okCollab 0).2.1 = loadCalls (batchRun okCollab2 ()).2.1 ∧
    exportOptsList (batchRun okCollab 0).2.1 = exportOptsList (batchRun okCollab2 ()).2.1 :=
  batch_noninterference_of_handles okCollab okCollab2 0 ()
    (fun s _ => ⟨s, rfl⟩) (fun _ _ _ => rfl)
    (fun _ ident => ⟨ident, rfl⟩) (fun _ _ _ => rfl)
